import Mathlib

/-!
Shallow embedding of the odbc-bridge conversion core
(src/src/extension/odbc.rs) and verification of its specification.

The embedding covers:
* the Column Metadata Resolver (`TryFrom<&OdbcColumn> for BufferDescription`),
* the Buffer Materializer (`Convert<Vec<OdbcColumnItem>> for AnyColumnView`),
* the Calendar Converter (`TryConvert` impls for `Date`, `Time`, `Timestamp`).

Machine integers are modelled as `Nat`/`Int`; the Rust casts `as u8` become
explicit `% 256`.  Rust panics (`unwrap`, out-of-bounds slice indexing) are
modelled as the error side of an `Except`.  Floating point columns are never
interpreted by the code (only copied), so their payloads are carried as raw
bit patterns (`Nat`).
-/

deriving instance DecidableEq for Except

namespace OdbcBridge

/-- The ODBC null-indicator sentinel.  Modelled from the spec: the
"designated sentinel indicator value" meaning NULL; in `odbc-sys` the
constant `NULL_DATA` has value `-1`. -/
def nullData : Int := -1

/-- `odbc_api::sys::Date`: `{year: i16, month: u16, day: u16}`. -/
structure Date where
  year : Int
  month : Nat
  day : Nat
deriving DecidableEq, Inhabited

/-- `odbc_api::sys::Time`: `{hour: u16, minute: u16, second: u16}`. -/
structure Time where
  hour : Nat
  minute : Nat
  second : Nat
deriving DecidableEq, Inhabited

/-- `odbc_api::sys::Timestamp`:
`{year: i16, month: u16, day: u16, hour: u16, minute: u16, second: u16, fraction: u32}`. -/
structure Timestamp where
  year : Int
  month : Nat
  day : Nat
  hour : Nat
  minute : Nat
  second : Nat
  fraction : Nat
deriving DecidableEq, Inhabited

/-- `odbc_api::buffers::BufferKind` — the closed set of physical storage
kinds a buffer can have. -/
inductive BufferKind where
  | Text
  | WText
  | Binary
  | Date
  | Time
  | Timestamp
  | F64
  | F32
  | I8
  | I16
  | I32
  | I64
  | U8
  | Bit
deriving DecidableEq, Inhabited

/-- `odbc_api::buffers::BufferDescription`. -/
structure BufferDescription where
  nullable : Bool
  kind : BufferKind
deriving DecidableEq

/-- `OdbcColumn` from src/src/extension/odbc.rs: a logical column
description.  The driver type tag `DataType` belongs to the external
`odbc-api` crate, so it is carried as a type parameter `α`. -/
structure OdbcColumn (α : Type) where
  name : String
  data_type : α
  nullable : Bool

/-- `TryFrom<&OdbcColumn> for BufferDescription` from the source:
maps the column's data type through `BufferKind::from_data_type`
(the external mapping `fromDataType`), copies the `nullable` flag, and on a
missing mapping produces the error string
`format!("covert DataType:{:?} to BufferKind error", c.data_type)`
(`fmt` stands for the `Debug` rendering of the tag). -/
def tryFromColumn {α : Type} (fromDataType : α → Option BufferKind)
    (fmt : α → String) (c : OdbcColumn α) : Except String BufferDescription :=
  match fromDataType c.data_type with
  | some k => Except.ok { nullable := c.nullable, kind := k }
  | none => Except.error ("covert DataType:" ++ fmt c.data_type ++ " to BufferKind error")

/-- `OdbcColumnItem` from the source: one typed, nullable cell value.
`F64`/`F32` carry uninterpreted bit patterns, `Binary` a byte list. -/
inductive OdbcColumnItem where
  | Text (v : Option String)
  | WText (v : Option String)
  | Binary (v : Option (List Nat))
  | Date (v : Option Date)
  | Time (v : Option Time)
  | Timestamp (v : Option Timestamp)
  | F64 (v : Option Nat)
  | F32 (v : Option Nat)
  | I8 (v : Option Int)
  | I16 (v : Option Int)
  | I32 (v : Option Int)
  | I64 (v : Option Int)
  | U8 (v : Option Nat)
  | Bit (v : Option Bool)
deriving DecidableEq, Inhabited

/-- `odbc_api::buffers::AnyColumnView` — the tagged union of driver-filled
buffer views.  Text/WText/Binary rows are `Option` spans (`none` = absent);
fixed-width non-nullable variants are dense value lists; `Nullable*`
variants pair a value list with a parallel indicator list, exactly as
`raw_values()` exposes them. -/
inductive AnyColumnView where
  | Text (rows : List (Option (List Nat)))
  | WText (rows : List (Option (List Nat)))
  | Binary (rows : List (Option (List Nat)))
  | Date (rows : List Date)
  | Time (rows : List Time)
  | Timestamp (rows : List Timestamp)
  | I32 (rows : List Int)
  | Bit (rows : List Nat)
  | F64 (rows : List Nat)
  | F32 (rows : List Nat)
  | I8 (rows : List Int)
  | I16 (rows : List Int)
  | I64 (rows : List Int)
  | U8 (rows : List Nat)
  | NullableDate (values : List Date) (indicators : List Int)
  | NullableTime (values : List Time) (indicators : List Int)
  | NullableTimestamp (values : List Timestamp) (indicators : List Int)
  | NullableF64 (values : List Nat) (indicators : List Int)
  | NullableF32 (values : List Nat) (indicators : List Int)
  | NullableI8 (values : List Int) (indicators : List Int)
  | NullableI16 (values : List Int) (indicators : List Int)
  | NullableI32 (values : List Int) (indicators : List Int)
  | NullableI64 (values : List Int) (indicators : List Int)
  | NullableU8 (values : List Nat) (indicators : List Int)
  | NullableBit (values : List Nat) (indicators : List Int)

/-- `odbc_api::Bit::as_bool` on the raw `u8` payload.  Modelled from the
spec: "Bit values are coerced to boolean using the storage kind's canonical
truthiness rule (nonzero = true)" — the `odbc-api` crate source is not part
of this repository. -/
def bitAsBool (b : Nat) : Bool := b ≠ 0

/-- A Rust panic, modelled as an error value: either `unwrap()` on a failed
UTF-16 decode in the WText arm, or an out-of-bounds index into the
indicator slice in a nullable arm. -/
inductive PanicErr where
  | utf16Unwrap
  | indexPanic
deriving DecidableEq

/-- The Unicode replacement character U+FFFD substituted by lossy UTF-8
decoding. -/
def replChar : Char := Char.ofNat 0xFFFD

/-- Is `x` a UTF-8 continuation byte (`0x80..=0xBF`)? -/
def utf8ContOk (x : Nat) : Bool := decide (0x80 ≤ x ∧ x ≤ 0xBF)

/-- Valid second byte of a three-byte UTF-8 sequence with lead byte `b`
(Rust `core::str` validation table: `0xE0` wants `0xA0..=0xBF`, `0xED`
wants `0x80..=0x9F`, the rest want a plain continuation byte). -/
def utf8Snd3 (b b1 : Nat) : Bool :=
  if b = 0xE0 then decide (0xA0 ≤ b1 ∧ b1 ≤ 0xBF)
  else if b = 0xED then decide (0x80 ≤ b1 ∧ b1 ≤ 0x9F)
  else utf8ContOk b1

/-- Valid second byte of a four-byte UTF-8 sequence with lead byte `b`
(`0xF0` wants `0x90..=0xBF`, `0xF4` wants `0x80..=0x8F`). -/
def utf8Snd4 (b b1 : Nat) : Bool :=
  if b = 0xF0 then decide (0x90 ≤ b1 ∧ b1 ≤ 0xBF)
  else if b = 0xF4 then decide (0x80 ≤ b1 ∧ b1 ≤ 0x8F)
  else utf8ContOk b1

/-- One step of UTF-8 decoding, following Rust's `core::str` validation and
the maximal-subpart error lengths used by `String::from_utf8_lossy`.
Given the lead byte `b` and the remaining bytes `bs`, returns
`(some c, k)` when a scalar value `c` was decoded consuming `k` further
bytes of `bs`, or `(none, k)` when the sequence is invalid and the invalid
subpart extends `k` bytes into `bs`. -/
def utf8Step (b : Nat) (bs : List Nat) : Option Char × Nat :=
  if b ≤ 0x7F then (some (Char.ofNat b), 0)
  else if b < 0xC2 then (none, 0)
  else if b ≤ 0xDF then
    match bs with
    | [] => (none, 0)
    | b1 :: _ =>
      if utf8ContOk b1 then
        (some (Char.ofNat ((b - 0xC0) * 0x40 + (b1 - 0x80))), 1)
      else (none, 0)
  else if b ≤ 0xEF then
    match bs with
    | [] => (none, 0)
    | b1 :: rest =>
      if utf8Snd3 b b1 then
        match rest with
        | [] => (none, 1)
        | b2 :: _ =>
          if utf8ContOk b2 then
            (some (Char.ofNat ((b - 0xE0) * 0x1000 + (b1 - 0x80) * 0x40 + (b2 - 0x80))), 2)
          else (none, 1)
      else (none, 0)
  else if b ≤ 0xF4 then
    match bs with
    | [] => (none, 0)
    | b1 :: rest =>
      if utf8Snd4 b b1 then
        match rest with
        | [] => (none, 1)
        | b2 :: rest2 =>
          if utf8ContOk b2 then
            match rest2 with
            | [] => (none, 2)
            | b3 :: _ =>
              if utf8ContOk b3 then
                (some (Char.ofNat ((b - 0xF0) * 0x40000 + (b1 - 0x80) * 0x1000
                  + (b2 - 0x80) * 0x40 + (b3 - 0x80))), 3)
              else (none, 2)
          else (none, 1)
      else (none, 0)
  else (none, 0)

/-- Fuelled lossy UTF-8 decoder (`String::from_utf8_lossy`): each invalid
maximal subpart becomes one replacement character.  Fuel bounds the number
of decoded characters; `bs.length` is always enough. -/
def utf8LossyFuel : Nat → List Nat → List Char
  | 0, _ => []
  | _ + 1, [] => []
  | fuel + 1, b :: bs =>
    ((utf8Step b bs).1.getD replChar) :: utf8LossyFuel fuel (bs.drop (utf8Step b bs).2)

/-- `String::from_utf8_lossy` on a byte list, as a character list. -/
def utf8DecodeLossy (bs : List Nat) : List Char := utf8LossyFuel bs.length bs

/-- Fuelled strict UTF-8 decoder (`str::from_utf8` semantics): `none` on
any invalid sequence. -/
def utf8StrictFuel : Nat → List Nat → Option (List Char)
  | 0, [] => some []
  | 0, _ :: _ => none
  | _ + 1, [] => some []
  | fuel + 1, b :: bs =>
    match utf8Step b bs with
    | (some c, k) => (utf8StrictFuel fuel (bs.drop k)).map (fun cs => c :: cs)
    | (none, _) => none

/-- Strict UTF-8 decoding: `some cs` exactly when `bs` is valid UTF-8 and
decodes to `cs`. -/
def utf8Decode? (bs : List Nat) : Option (List Char) := utf8StrictFuel bs.length bs

/-- `std::char::decode_utf16` followed by `unwrap()` on every item, as in
the WText arm: decodes UTF-16 code units left to right, pairing surrogates;
`none` at the first unpaired surrogate (the `unwrap` panic). -/
def decodeUtf16 : List Nat → Option (List Char)
  | [] => some []
  | u :: us =>
    if u < 0xD800 ∨ 0xDFFF < u then
      (decodeUtf16 us).map (fun cs => Char.ofNat u :: cs)
    else if 0xDC00 ≤ u then none
    else
      match us with
      | [] => none
      | u2 :: us2 =>
        if 0xDC00 ≤ u2 ∧ u2 ≤ 0xDFFF then
          (decodeUtf16 us2).map
            (fun cs => Char.ofNat (0x10000 + (u - 0xD800) * 0x400 + (u2 - 0xDC00)) :: cs)
        else none

/-- The Rust `for`-loop that pushes one converted item per row and can
panic: stops at the first error. -/
def tryMap {α β ε : Type} (f : α → Except ε β) : List α → Except ε (List β)
  | [] => Except.ok []
  | x :: xs =>
    match f x with
    | Except.error e => Except.error e
    | Except.ok y =>
      match tryMap f xs with
      | Except.error e => Except.error e
      | Except.ok ys => Except.ok (y :: ys)

/-- The body of every `Nullable*` arm:
`values.iter().enumerate().map(|(index, value)| if indicators[index] != NULL_DATA { ctor(Some(value)) } else { ctor(None) }).collect()`.
The running index starts at `i`; `indicators[index]` out of bounds is the
Rust slice-indexing panic. -/
def nullableRowsAux {α : Type} (ctor : Option α → OdbcColumnItem)
    (indicators : List Int) : Nat → List α → Except PanicErr (List OdbcColumnItem)
  | _, [] => Except.ok []
  | i, v :: vs =>
    match indicators[i]? with
    | none => Except.error PanicErr.indexPanic
    | some ind =>
      match nullableRowsAux ctor indicators (i + 1) vs with
      | Except.error e => Except.error e
      | Except.ok rest =>
        Except.ok ((if ind ≠ nullData then ctor (some v) else ctor none) :: rest)

/-- A `Nullable*` arm of `convert`, starting the enumeration at index 0. -/
def nullableRows {α : Type} (ctor : Option α → OdbcColumnItem)
    (values : List α) (indicators : List Int) : Except PanicErr (List OdbcColumnItem) :=
  nullableRowsAux ctor indicators 0 values

/-- The Buffer Materializer
`Convert<Vec<OdbcColumnItem>> for AnyColumnView::convert`, arm by arm.
Normal completion is `Except.ok`; a Rust panic is `Except.error`. -/
def convert : AnyColumnView → Except PanicErr (List OdbcColumnItem)
  | AnyColumnView.Text rows =>
    Except.ok (rows.map (fun r =>
      match r with
      | some bytes => OdbcColumnItem.Text (some (String.mk (utf8DecodeLossy bytes)))
      | none => OdbcColumnItem.Text none))
  | AnyColumnView.WText rows =>
    tryMap (fun r =>
      match r with
      | some units =>
        match decodeUtf16 units with
        | some cs => Except.ok (OdbcColumnItem.WText (some (String.mk cs)))
        | none => Except.error PanicErr.utf16Unwrap
      | none => Except.ok (OdbcColumnItem.WText none)) rows
  | AnyColumnView.Binary rows =>
    Except.ok (rows.map (fun r => OdbcColumnItem.Binary r))
  | AnyColumnView.Date rows =>
    Except.ok (rows.map (fun v => OdbcColumnItem.Date (some v)))
  | AnyColumnView.Timestamp rows =>
    Except.ok (rows.map (fun v => OdbcColumnItem.Timestamp (some v)))
  | AnyColumnView.Time rows =>
    Except.ok (rows.map (fun v => OdbcColumnItem.Time (some v)))
  | AnyColumnView.I32 rows =>
    Except.ok (rows.map (fun v => OdbcColumnItem.I32 (some v)))
  | AnyColumnView.Bit rows =>
    Except.ok (rows.map (fun v => OdbcColumnItem.Bit (some (bitAsBool v))))
  | AnyColumnView.F64 rows =>
    Except.ok (rows.map (fun v => OdbcColumnItem.F64 (some v)))
  | AnyColumnView.F32 rows =>
    Except.ok (rows.map (fun v => OdbcColumnItem.F32 (some v)))
  | AnyColumnView.I8 rows =>
    Except.ok (rows.map (fun v => OdbcColumnItem.I8 (some v)))
  | AnyColumnView.I16 rows =>
    Except.ok (rows.map (fun v => OdbcColumnItem.I16 (some v)))
  | AnyColumnView.I64 rows =>
    Except.ok (rows.map (fun v => OdbcColumnItem.I64 (some v)))
  | AnyColumnView.U8 rows =>
    Except.ok (rows.map (fun v => OdbcColumnItem.U8 (some v)))
  | AnyColumnView.NullableDate values indicators =>
    nullableRows (fun o => OdbcColumnItem.Date o) values indicators
  | AnyColumnView.NullableTime values indicators =>
    nullableRows (fun o => OdbcColumnItem.Time o) values indicators
  | AnyColumnView.NullableTimestamp values indicators =>
    nullableRows (fun o => OdbcColumnItem.Timestamp o) values indicators
  | AnyColumnView.NullableF64 values indicators =>
    nullableRows (fun o => OdbcColumnItem.F64 o) values indicators
  | AnyColumnView.NullableF32 values indicators =>
    nullableRows (fun o => OdbcColumnItem.F32 o) values indicators
  | AnyColumnView.NullableI8 values indicators =>
    nullableRows (fun o => OdbcColumnItem.I8 o) values indicators
  | AnyColumnView.NullableI16 values indicators =>
    nullableRows (fun o => OdbcColumnItem.I16 o) values indicators
  | AnyColumnView.NullableI32 values indicators =>
    nullableRows (fun o => OdbcColumnItem.I32 o) values indicators
  | AnyColumnView.NullableI64 values indicators =>
    nullableRows (fun o => OdbcColumnItem.I64 o) values indicators
  | AnyColumnView.NullableU8 values indicators =>
    nullableRows (fun o => OdbcColumnItem.U8 o) values indicators
  | AnyColumnView.NullableBit values indicators =>
    nullableRows (fun o => OdbcColumnItem.Bit (o.map bitAsBool)) values indicators

/-- An error from the external `time` crate: a component out of its valid
range, carrying the component's name. -/
inductive TimeError where
  | componentRange (name : String)
deriving DecidableEq

/-- `time::Date`: a calendar date already validated by the library. -/
structure TimeDate where
  year : Int
  month : Nat
  day : Nat
deriving DecidableEq

/-- `time::Time`: a clock time already validated by the library. -/
structure TimeTime where
  hour : Nat
  minute : Nat
  second : Nat
  nanosecond : Nat
deriving DecidableEq

/-- `time::PrimitiveDateTime`: a date paired with a time. -/
structure PrimitiveDateTime where
  date : TimeDate
  time : TimeTime
deriving DecidableEq

/-- The `time` crate's leap-year test:
`year % 4 == 0 && (year % 25 != 0 || year % 16 == 0)`. -/
def isLeapYear (year : Int) : Bool :=
  year % 4 == 0 && (year % 25 != 0 || year % 16 == 0)

/-- `time::util::days_in_year_month` (month must be 1..=12; other values
answer 0, which makes every day invalid, matching unreachability). -/
def daysInYearMonth (year : Int) (month : Nat) : Nat :=
  match month with
  | 1 => 31
  | 2 => if isLeapYear year then 29 else 28
  | 3 => 31
  | 4 => 30
  | 5 => 31
  | 6 => 30
  | 7 => 31
  | 8 => 31
  | 9 => 30
  | 10 => 31
  | 11 => 30
  | 12 => 31
  | _ => 0

/-- `time::Month::try_from(u8)`: succeeds exactly on 1..=12, otherwise a
component-range error for "month". -/
def monthTryFrom (m : Nat) : Except TimeError Nat :=
  if 1 ≤ m ∧ m ≤ 12 then Except.ok m else Except.error (TimeError.componentRange "month")

/-- `time::Date::from_calendar_date(year, month, day)` without the
`large-dates` feature: year must lie in -9999..=9999 and day in
1..=days_in_year_month; `month` has already been validated. -/
def fromCalendarDate (year : Int) (month : Nat) (day : Nat) : Except TimeError TimeDate :=
  if year < -9999 ∨ 9999 < year then Except.error (TimeError.componentRange "year")
  else if day < 1 ∨ daysInYearMonth year month < day then
    Except.error (TimeError.componentRange "day")
  else Except.ok { year := year, month := month, day := day }

/-- `time::Time::from_hms`: hour 0..=23, minute 0..=59, second 0..=59,
nanosecond fixed to 0. -/
def fromHms (h m s : Nat) : Except TimeError TimeTime :=
  if 23 < h then Except.error (TimeError.componentRange "hour")
  else if 59 < m then Except.error (TimeError.componentRange "minute")
  else if 59 < s then Except.error (TimeError.componentRange "second")
  else Except.ok { hour := h, minute := m, second := s, nanosecond := 0 }

/-- `time::Time::from_hms_nano`: additionally nanosecond 0..=999_999_999. -/
def fromHmsNano (h m s n : Nat) : Except TimeError TimeTime :=
  if 23 < h then Except.error (TimeError.componentRange "hour")
  else if 59 < m then Except.error (TimeError.componentRange "minute")
  else if 59 < s then Except.error (TimeError.componentRange "second")
  else if 999999999 < n then Except.error (TimeError.componentRange "nanosecond")
  else Except.ok { hour := h, minute := m, second := s, nanosecond := n }

/-- `TryConvert<time::Date> for Date` from the source:
`time::Date::from_calendar_date(self.year as i32, time::Month::try_from(self.month as u8)?, self.day as u8)`.
The `as u8` casts on the `u16` fields are `% 256`. -/
def Date.tryConvert (d : Date) : Except TimeError TimeDate := do
  let m ← monthTryFrom (d.month % 256)
  fromCalendarDate d.year m (d.day % 256)

/-- `TryConvert<time::Time> for Time` from the source:
`time::Time::from_hms(self.hour as u8, self.minute as u8, self.second as u8)`. -/
def Time.tryConvert (t : Time) : Except TimeError TimeTime :=
  fromHms (t.hour % 256) (t.minute % 256) (t.second % 256)

/-- `TryConvert<time::Time> for (Time, u32)` from the source:
`time::Time::from_hms_nano(time.hour as u8, time.minute as u8, time.second as u8, nanosecond)`. -/
def timeNanoTryConvert (t : Time) (nanosecond : Nat) : Except TimeError TimeTime :=
  fromHmsNano (t.hour % 256) (t.minute % 256) (t.second % 256) nanosecond

/-- `TryConvert<(time::Date, time::Time)> for Timestamp` from the source:
builds a `Date` from the year/month/day fields and converts it, then a
`Time` from the hour/minute/second fields converted together with
`self.fraction as u32` as the nanosecond. -/
def Timestamp.tryConvertPair (ts : Timestamp) : Except TimeError (TimeDate × TimeTime) := do
  let date ← Date.tryConvert { year := ts.year, month := ts.month, day := ts.day }
  let time ← timeNanoTryConvert
    { hour := ts.hour, minute := ts.minute, second := ts.second } ts.fraction
  Except.ok (date, time)

/-- `TryConvert<time::PrimitiveDateTime> for Timestamp` from the source:
the pair conversion followed by `time::PrimitiveDateTime::new`. -/
def Timestamp.tryConvertDateTime (ts : Timestamp) : Except TimeError PrimitiveDateTime := do
  let p ← Timestamp.tryConvertPair ts
  Except.ok { date := p.1, time := p.2 }

/-- Spec-side composition for the datetime conversion ("converts the
(year, month, day) part via to_date and the (hour, minute, second) part
together with the fraction field as the nanosecond component via to_time,
and combines the two results"), written directly from the spec's words for
comparison with `Timestamp.tryConvertDateTime`. -/
def toDatetimeSpec (ts : Timestamp) : Except TimeError PrimitiveDateTime := do
  let d ← Date.tryConvert { year := ts.year, month := ts.month, day := ts.day }
  let t ← timeNanoTryConvert
    { hour := ts.hour, minute := ts.minute, second := ts.second } ts.fraction
  Except.ok { date := d, time := t }

/-- Number of input rows of a buffer view (the value-array length). -/
def rowCount : AnyColumnView → Nat
  | AnyColumnView.Text rows => rows.length
  | AnyColumnView.WText rows => rows.length
  | AnyColumnView.Binary rows => rows.length
  | AnyColumnView.Date rows => rows.length
  | AnyColumnView.Time rows => rows.length
  | AnyColumnView.Timestamp rows => rows.length
  | AnyColumnView.I32 rows => rows.length
  | AnyColumnView.Bit rows => rows.length
  | AnyColumnView.F64 rows => rows.length
  | AnyColumnView.F32 rows => rows.length
  | AnyColumnView.I8 rows => rows.length
  | AnyColumnView.I16 rows => rows.length
  | AnyColumnView.I64 rows => rows.length
  | AnyColumnView.U8 rows => rows.length
  | AnyColumnView.NullableDate values _ => values.length
  | AnyColumnView.NullableTime values _ => values.length
  | AnyColumnView.NullableTimestamp values _ => values.length
  | AnyColumnView.NullableF64 values _ => values.length
  | AnyColumnView.NullableF32 values _ => values.length
  | AnyColumnView.NullableI8 values _ => values.length
  | AnyColumnView.NullableI16 values _ => values.length
  | AnyColumnView.NullableI32 values _ => values.length
  | AnyColumnView.NullableI64 values _ => values.length
  | AnyColumnView.NullableU8 values _ => values.length
  | AnyColumnView.NullableBit values _ => values.length

/-- The nullable-arm cell for row `i`, as a function of the row's own data. -/
def nullableCell {α : Type} [Inhabited α] (ctor : Option α → OdbcColumnItem)
    (values : List α) (indicators : List Int) (i : Nat) : Except PanicErr OdbcColumnItem :=
  match indicators[i]? with
  | none => Except.error PanicErr.indexPanic
  | some ind =>
    Except.ok (if ind ≠ nullData then ctor (some (values.getD i default)) else ctor none)

/-- The cell the materializer derives from input row `i` alone (meaningful
for `i < rowCount`): the per-row logic of each `convert` arm. -/
def rowCell : AnyColumnView → Nat → Except PanicErr OdbcColumnItem
  | AnyColumnView.Text rows, i =>
    Except.ok (match rows.getD i none with
      | some bytes => OdbcColumnItem.Text (some (String.mk (utf8DecodeLossy bytes)))
      | none => OdbcColumnItem.Text none)
  | AnyColumnView.WText rows, i =>
    (match rows.getD i none with
      | some units =>
        match decodeUtf16 units with
        | some cs => Except.ok (OdbcColumnItem.WText (some (String.mk cs)))
        | none => Except.error PanicErr.utf16Unwrap
      | none => Except.ok (OdbcColumnItem.WText none))
  | AnyColumnView.Binary rows, i => Except.ok (OdbcColumnItem.Binary (rows.getD i none))
  | AnyColumnView.Date rows, i => Except.ok (OdbcColumnItem.Date (some (rows.getD i default)))
  | AnyColumnView.Time rows, i => Except.ok (OdbcColumnItem.Time (some (rows.getD i default)))
  | AnyColumnView.Timestamp rows, i =>
    Except.ok (OdbcColumnItem.Timestamp (some (rows.getD i default)))
  | AnyColumnView.I32 rows, i => Except.ok (OdbcColumnItem.I32 (some (rows.getD i default)))
  | AnyColumnView.Bit rows, i =>
    Except.ok (OdbcColumnItem.Bit (some (bitAsBool (rows.getD i default))))
  | AnyColumnView.F64 rows, i => Except.ok (OdbcColumnItem.F64 (some (rows.getD i default)))
  | AnyColumnView.F32 rows, i => Except.ok (OdbcColumnItem.F32 (some (rows.getD i default)))
  | AnyColumnView.I8 rows, i => Except.ok (OdbcColumnItem.I8 (some (rows.getD i default)))
  | AnyColumnView.I16 rows, i => Except.ok (OdbcColumnItem.I16 (some (rows.getD i default)))
  | AnyColumnView.I64 rows, i => Except.ok (OdbcColumnItem.I64 (some (rows.getD i default)))
  | AnyColumnView.U8 rows, i => Except.ok (OdbcColumnItem.U8 (some (rows.getD i default)))
  | AnyColumnView.NullableDate values indicators, i =>
    nullableCell (fun o => OdbcColumnItem.Date o) values indicators i
  | AnyColumnView.NullableTime values indicators, i =>
    nullableCell (fun o => OdbcColumnItem.Time o) values indicators i
  | AnyColumnView.NullableTimestamp values indicators, i =>
    nullableCell (fun o => OdbcColumnItem.Timestamp o) values indicators i
  | AnyColumnView.NullableF64 values indicators, i =>
    nullableCell (fun o => OdbcColumnItem.F64 o) values indicators i
  | AnyColumnView.NullableF32 values indicators, i =>
    nullableCell (fun o => OdbcColumnItem.F32 o) values indicators i
  | AnyColumnView.NullableI8 values indicators, i =>
    nullableCell (fun o => OdbcColumnItem.I8 o) values indicators i
  | AnyColumnView.NullableI16 values indicators, i =>
    nullableCell (fun o => OdbcColumnItem.I16 o) values indicators i
  | AnyColumnView.NullableI32 values indicators, i =>
    nullableCell (fun o => OdbcColumnItem.I32 o) values indicators i
  | AnyColumnView.NullableI64 values indicators, i =>
    nullableCell (fun o => OdbcColumnItem.I64 o) values indicators i
  | AnyColumnView.NullableU8 values indicators, i =>
    nullableCell (fun o => OdbcColumnItem.U8 o) values indicators i
  | AnyColumnView.NullableBit values indicators, i =>
    nullableCell (fun o => OdbcColumnItem.Bit (o.map bitAsBool)) values indicators i

/-- The precondition under which the materializer completes normally:
every present wide-text span is well-formed UTF-16, and each nullable arm's
indicator array is at least as long as its value array (the equal-length
driver invariant implies this). -/
def wellFormed : AnyColumnView → Bool
  | AnyColumnView.WText rows =>
    rows.all (fun r =>
      match r with
      | some units => (decodeUtf16 units).isSome
      | none => true)
  | AnyColumnView.NullableDate values indicators => decide (values.length ≤ indicators.length)
  | AnyColumnView.NullableTime values indicators => decide (values.length ≤ indicators.length)
  | AnyColumnView.NullableTimestamp values indicators =>
    decide (values.length ≤ indicators.length)
  | AnyColumnView.NullableF64 values indicators => decide (values.length ≤ indicators.length)
  | AnyColumnView.NullableF32 values indicators => decide (values.length ≤ indicators.length)
  | AnyColumnView.NullableI8 values indicators => decide (values.length ≤ indicators.length)
  | AnyColumnView.NullableI16 values indicators => decide (values.length ≤ indicators.length)
  | AnyColumnView.NullableI32 values indicators => decide (values.length ≤ indicators.length)
  | AnyColumnView.NullableI64 values indicators => decide (values.length ≤ indicators.length)
  | AnyColumnView.NullableU8 values indicators => decide (values.length ≤ indicators.length)
  | AnyColumnView.NullableBit values indicators => decide (values.length ≤ indicators.length)
  | _ => true

/-! ### Helper lemmas about the loop combinators -/

theorem tryMap_ok_length {α β ε : Type} (f : α → Except ε β) :
    ∀ xs ys, tryMap f xs = Except.ok ys → ys.length = xs.length := by
  intro xs
  induction xs with
  | nil =>
    intro ys h
    simp only [tryMap] at h
    cases h
    rfl
  | cons x xs ih =>
    intro ys h
    simp only [tryMap] at h
    cases hfx : f x with
    | error e => rw [hfx] at h; cases h
    | ok y =>
      rw [hfx] at h
      cases hrest : tryMap f xs with
      | error e => rw [hrest] at h; cases h
      | ok ys2 =>
        rw [hrest] at h
        cases h
        simp [ih ys2 hrest]

theorem tryMap_ok_getD {α β ε : Type} (f : α → Except ε β) (dx : α) (dy : β) :
    ∀ xs ys, tryMap f xs = Except.ok ys →
      ∀ i, i < xs.length → f (xs.getD i dx) = Except.ok (ys.getD i dy) := by
  intro xs
  induction xs with
  | nil => intro ys _ i hi; cases hi
  | cons x xs ih =>
    intro ys h i hi
    simp only [tryMap] at h
    cases hfx : f x with
    | error e => rw [hfx] at h; cases h
    | ok y =>
      rw [hfx] at h
      cases hrest : tryMap f xs with
      | error e => rw [hrest] at h; cases h
      | ok ys2 =>
        rw [hrest] at h
        cases h
        cases i with
        | zero => simpa using hfx
        | succ j =>
          have hj : j < xs.length := Nat.lt_of_succ_lt_succ hi
          simpa using ih ys2 hrest j hj

theorem tryMap_ok_forall {α β ε : Type} (f : α → Except ε β) :
    ∀ xs ys, tryMap f xs = Except.ok ys → ∀ x ∈ xs, ∃ y, f x = Except.ok y := by
  intro xs
  induction xs with
  | nil => intro ys _ x hx; cases hx
  | cons x xs ih =>
    intro ys h z hz
    simp only [tryMap] at h
    cases hfx : f x with
    | error e => rw [hfx] at h; cases h
    | ok y =>
      rw [hfx] at h
      cases hrest : tryMap f xs with
      | error e => rw [hrest] at h; cases h
      | ok ys2 =>
        rcases List.mem_cons.mp hz with hz | hz
        · exact ⟨y, hz ▸ hfx⟩
        · exact ih ys2 hrest z hz

theorem tryMap_ok_of_forall {α β ε : Type} (f : α → Except ε β) :
    ∀ xs, (∀ x ∈ xs, ∃ y, f x = Except.ok y) → ∃ ys, tryMap f xs = Except.ok ys := by
  intro xs
  induction xs with
  | nil => intro _; exact ⟨[], rfl⟩
  | cons x xs ih =>
    intro h
    obtain ⟨y, hy⟩ := h x (List.mem_cons_self x xs)
    obtain ⟨ys, hys⟩ := ih (fun z hz => h z (List.mem_cons_of_mem x hz))
    exact ⟨y :: ys, by simp only [tryMap, hy, hys]⟩

theorem getD_map_of_lt {α β : Type} (f : α → β) (dx : α) (dy : β) :
    ∀ (xs : List α) (i : Nat), i < xs.length → (xs.map f).getD i dy = f (xs.getD i dx) := by
  intro xs
  induction xs with
  | nil => intro i hi; cases hi
  | cons x xs ih =>
    intro i hi
    cases i with
    | zero => rfl
    | succ j => simpa using ih j (Nat.lt_of_succ_lt_succ hi)

theorem getD_of_getElem? {α : Type} {xs : List α} {i : Nat} {a : α} (d : α)
    (h : xs[i]? = some a) : xs.getD i d = a := by
  simp [List.getD_eq_getElem?_getD, h]

theorem nullableRowsAux_ok_length {α : Type} (ctor : Option α → OdbcColumnItem)
    (indicators : List Int) :
    ∀ values k out, nullableRowsAux ctor indicators k values = Except.ok out →
      out.length = values.length := by
  intro values
  induction values with
  | nil =>
    intro k out h
    simp only [nullableRowsAux] at h
    cases h
    rfl
  | cons v vs ih =>
    intro k out h
    simp only [nullableRowsAux] at h
    cases hind : indicators[k]? with
    | none => rw [hind] at h; cases h
    | some ind =>
      rw [hind] at h
      cases hrest : nullableRowsAux ctor indicators (k + 1) vs with
      | error e => rw [hrest] at h; cases h
      | ok rest =>
        rw [hrest] at h
        cases h
        simp [ih (k + 1) rest hrest]

theorem nullableRowsAux_getElem? {α : Type} (ctor : Option α → OdbcColumnItem)
    (indicators : List Int) :
    ∀ values k out, nullableRowsAux ctor indicators k values = Except.ok out →
      ∀ j v, values[j]? = some v →
        ∃ ind, indicators[k + j]? = some ind ∧
          out[j]? = some (if ind ≠ nullData then ctor (some v) else ctor none) := by
  intro values
  induction values with
  | nil => intro k out _ j v hv; simp at hv
  | cons w vs ih =>
    intro k out h j v hv
    simp only [nullableRowsAux] at h
    cases hind : indicators[k]? with
    | none => rw [hind] at h; cases h
    | some ind =>
      rw [hind] at h
      cases hrest : nullableRowsAux ctor indicators (k + 1) vs with
      | error e => rw [hrest] at h; cases h
      | ok rest =>
        rw [hrest] at h
        cases h
        cases j with
        | zero =>
          simp only [List.getElem?_cons_zero, Option.some.injEq] at hv
          subst hv
          exact ⟨ind, by simpa using hind, by simp⟩
        | succ j2 =>
          simp only [List.getElem?_cons_succ] at hv
          obtain ⟨ind2, hind2, hout2⟩ := ih (k + 1) rest hrest j2 v hv
          refine ⟨ind2, ?_, by simpa using hout2⟩
          have : k + 1 + j2 = k + (j2 + 1) := by omega
          rw [← this]
          exact hind2

theorem nullableRowsAux_ok_of_le {α : Type} (ctor : Option α → OdbcColumnItem)
    (indicators : List Int) :
    ∀ values k, k + values.length ≤ indicators.length →
      ∃ out, nullableRowsAux ctor indicators k values = Except.ok out := by
  intro values
  induction values with
  | nil => intro k _; exact ⟨[], rfl⟩
  | cons v vs ih =>
    intro k hk
    have hklt : k < indicators.length := by simp at hk; omega
    obtain ⟨ind, hind⟩ : ∃ ind, indicators[k]? = some ind :=
      ⟨indicators[k], List.getElem?_eq_getElem hklt⟩
    obtain ⟨rest, hrest⟩ := ih (k + 1) (by simp at hk ⊢; omega)
    exact ⟨(if ind ≠ nullData then ctor (some v) else ctor none) :: rest,
      by simp only [nullableRowsAux, hind, hrest]⟩

theorem nullableRows_spec {α : Type} (ctor : Option α → OdbcColumnItem)
    (values : List α) (indicators : List Int) (i : Nat) (v : α) (ind : Int)
    (hlen : values.length ≤ indicators.length)
    (hv : values[i]? = some v) (hind : indicators[i]? = some ind) :
    ∃ out, nullableRows ctor values indicators = Except.ok out ∧
      out.length = values.length ∧
      out[i]? = some (if ind ≠ nullData then ctor (some v) else ctor none) := by
  obtain ⟨out, hout⟩ :=
    nullableRowsAux_ok_of_le ctor indicators values 0 (by simpa using hlen)
  refine ⟨out, hout, nullableRowsAux_ok_length ctor indicators values 0 out hout, ?_⟩
  obtain ⟨ind2, hind2, hgot⟩ :=
    nullableRowsAux_getElem? ctor indicators values 0 out hout i v hv
  have : ind2 = ind := by
    rw [show (0 : Nat) + i = i from by omega] at hind2
    rw [hind2] at hind
    exact (Option.some.injEq _ _).mp hind
  rw [← this]
  exact hgot

theorem utf8Strict_lossy_agree :
    ∀ fuel bs cs, bs.length ≤ fuel → utf8StrictFuel fuel bs = some cs →
      utf8LossyFuel fuel bs = cs := by
  intro fuel
  induction fuel with
  | zero =>
    intro bs cs hlen h
    cases bs with
    | nil =>
      simp only [utf8StrictFuel, Option.some.injEq] at h
      subst h
      rfl
    | cons b bs => simp at hlen
  | succ fuel ih =>
    intro bs cs hlen h
    cases bs with
    | nil =>
      simp only [utf8StrictFuel, Option.some.injEq] at h
      subst h
      rfl
    | cons b bs =>
      simp only [utf8StrictFuel] at h
      cases hstep : utf8Step b bs with
      | mk oc k =>
        rw [hstep] at h
        cases oc with
        | none => simp at h
        | some c =>
          rw [Option.map_eq_some'] at h
          obtain ⟨cs2, hrest, hcs⟩ := h
          subst hcs
          have hdlen : (bs.drop k).length ≤ fuel := by
            simp only [List.length_cons] at hlen
            simp only [List.length_drop]
            omega
          simp only [utf8LossyFuel, hstep, Option.getD_some]
          rw [ih (bs.drop k) cs2 hdlen hrest]

theorem utf8Strict_none_mem :
    ∀ fuel bs, bs.length ≤ fuel → utf8StrictFuel fuel bs = none →
      replChar ∈ utf8LossyFuel fuel bs := by
  intro fuel
  induction fuel with
  | zero =>
    intro bs hlen h
    cases bs with
    | nil => simp [utf8StrictFuel] at h
    | cons b bs => simp at hlen
  | succ fuel ih =>
    intro bs hlen h
    cases bs with
    | nil => simp [utf8StrictFuel] at h
    | cons b bs =>
      simp only [utf8StrictFuel] at h
      cases hstep : utf8Step b bs with
      | mk oc k =>
        rw [hstep] at h
        cases oc with
        | none =>
          simp only [utf8LossyFuel, hstep, Option.getD_none]
          exact List.mem_cons_self _ _
        | some c =>
          rw [Option.map_eq_none'] at h
          have hdlen : (bs.drop k).length ≤ fuel := by
            simp only [List.length_cons] at hlen
            simp only [List.length_drop]
            omega
          simp only [utf8LossyFuel, hstep, Option.getD_some]
          exact List.mem_cons_of_mem _ (ih (bs.drop k) hdlen h)

theorem utf8DecodeLossy_of_valid {bs : List Nat} {cs : List Char}
    (h : utf8Decode? bs = some cs) : utf8DecodeLossy bs = cs :=
  utf8Strict_lossy_agree bs.length bs cs (Nat.le_refl _) h

theorem replChar_mem_utf8DecodeLossy_of_invalid {bs : List Nat}
    (h : utf8Decode? bs = none) : replChar ∈ utf8DecodeLossy bs :=
  utf8Strict_none_mem bs.length bs (Nat.le_refl _) h

theorem nullableRows_claim {α : Type} (ctor : Option α → OdbcColumnItem)
    (values : List α) (indicators : List Int) (i : Nat) (v : α) (ind : Int)
    (hlen : values.length = indicators.length)
    (hv : values[i]? = some v) (hind : indicators[i]? = some ind) :
    ∃ out, nullableRows ctor values indicators = Except.ok out ∧
      out.length = values.length ∧
      out[i]? = some (if ind = nullData then ctor none else ctor (some v)) := by
  obtain ⟨out, h1, h2, h3⟩ :=
    nullableRows_spec ctor values indicators i v ind (Nat.le_of_eq hlen) hv hind
  refine ⟨out, h1, h2, ?_⟩
  rw [h3]
  by_cases h : ind = nullData <;> simp [h]

theorem nullableRows_rowCell {α : Type} [Inhabited α] (ctor : Option α → OdbcColumnItem)
    (values : List α) (indicators : List Int) (out : List OdbcColumnItem)
    (h : nullableRows ctor values indicators = Except.ok out) :
    out.length = values.length ∧
    ∀ i, i < values.length →
      nullableCell ctor values indicators i =
        Except.ok (out.getD i (OdbcColumnItem.Text none)) := by
  refine ⟨nullableRowsAux_ok_length ctor indicators values 0 out h, ?_⟩
  intro i hi
  have hv : values[i]? = some values[i] := List.getElem?_eq_getElem hi
  obtain ⟨ind, hind, hout⟩ := nullableRowsAux_getElem? ctor indicators values 0 out h i _ hv
  rw [show (0 : Nat) + i = i from by omega] at hind
  have hvd : values.getD i default = values[i] := getD_of_getElem? default hv
  have houtd := getD_of_getElem? (OdbcColumnItem.Text none) hout
  simp only [nullableCell, hind, houtd, hvd]

theorem Date_tryConvert_eq (d : Date) :
    Date.tryConvert d =
      if 1 ≤ d.month % 256 ∧ d.month % 256 ≤ 12 then
        (if d.year < -9999 ∨ 9999 < d.year then
          Except.error (TimeError.componentRange "year")
        else if d.day % 256 < 1 ∨ daysInYearMonth d.year (d.month % 256) < d.day % 256 then
          Except.error (TimeError.componentRange "day")
        else Except.ok { year := d.year, month := d.month % 256, day := d.day % 256 })
      else Except.error (TimeError.componentRange "month") := by
  simp only [Date.tryConvert, monthTryFrom, fromCalendarDate]
  by_cases h : 1 ≤ d.month % 256 ∧ d.month % 256 ≤ 12
  · rw [if_pos h, if_pos h]
    rfl
  · rw [if_neg h, if_neg h]
    rfl

theorem map_rowCell {α : Type} (f : α → OdbcColumnItem) (rows : List α)
    (out : List OdbcColumnItem) (d : α)
    (h : (Except.ok (rows.map f) : Except PanicErr (List OdbcColumnItem)) = Except.ok out) :
    out.length = rows.length ∧
    ∀ i : Nat, i < rows.length →
      (Except.ok (f (rows.getD i d)) : Except PanicErr OdbcColumnItem) =
        Except.ok (out.getD i (OdbcColumnItem.Text none)) := by
  have hout : rows.map f = out := (Except.ok.injEq _ _).mp h
  subst hout
  exact ⟨by simp, fun i hi => by
    rw [getD_map_of_lt f d (OdbcColumnItem.Text none) rows i hi]⟩

/-! ### Claim theorems -/

/-- C5: for every column descriptor, if the physical type tag has a
storage-kind mapping then `try_from` succeeds with the `nullable` flag
copied verbatim and the mapped kind; if it has no mapping it fails with an
error string carrying the offending type tag. -/
theorem C5_resolver {α : Type} (fromDataType : α → Option BufferKind)
    (fmt : α → String) (c : OdbcColumn α) :
    (∀ k, fromDataType c.data_type = some k →
      tryFromColumn fromDataType fmt c =
        Except.ok { nullable := c.nullable, kind := k }) ∧
    (fromDataType c.data_type = none →
      tryFromColumn fromDataType fmt c =
        Except.error ("covert DataType:" ++ fmt c.data_type ++ " to BufferKind error")) := by
  constructor
  · intro k hk
    simp [tryFromColumn, hk]
  · intro hk
    simp [tryFromColumn, hk]

theorem C5_resolver_witness :
    ((fun b => if b then some BufferKind.I32 else none) true = some BufferKind.I32 ∧
      tryFromColumn (fun b => if b then some BufferKind.I32 else none) (fun _ => "Integer")
        { name := "c", data_type := true, nullable := false } =
        Except.ok { nullable := false, kind := BufferKind.I32 }) ∧
    ((fun b => if b then some BufferKind.I32 else none) false = none ∧
      tryFromColumn (fun b => if b then some BufferKind.I32 else none) (fun _ => "Integer")
        { name := "c", data_type := false, nullable := true } =
        Except.error ("covert DataType:" ++ "Integer" ++ " to BufferKind error")) :=
  ⟨⟨rfl, (C5_resolver (fun b => if b then some BufferKind.I32 else none) (fun _ => "Integer")
      { name := "c", data_type := true, nullable := false }).1 BufferKind.I32 rfl⟩,
   ⟨rfl, (C5_resolver (fun b => if b then some BufferKind.I32 else none) (fun _ => "Integer")
      { name := "c", data_type := false, nullable := true }).2 rfl⟩⟩

/-- C6 counterexample: the claim says `to_date` fails whenever the month is
outside 1–12, but on month 268 the code truncates `268 as u8 = 12` and
succeeds. -/
theorem C6_counterexample :
    Date.tryConvert { year := 2021, month := 268, day := 15 } =
      Except.ok { year := 2021, month := 12, day := 15 } := by decide

/-- C6 (amended): for inputs whose month and day fit in 8 bits and whose
year lies in the calendar library's supported range −9999..=9999, `to_date`
fails exactly when the month is outside 1–12 or the day is not a valid day
for that month and year; the three boundary examples hold as stated. -/
theorem C6_to_date (year : Int) (month day : Nat)
    (hy1 : -9999 ≤ year) (hy2 : year ≤ 9999) (hm : month < 256) (hd : day < 256) :
    ((∃ e, Date.tryConvert { year := year, month := month, day := day } = Except.error e) ↔
      (month < 1 ∨ 12 < month ∨ day < 1 ∨ daysInYearMonth year month < day)) ∧
    (∃ x, Date.tryConvert { year := 2020, month := 2, day := 29 } = Except.ok x) ∧
    (∃ e, Date.tryConvert { year := 2021, month := 2, day := 29 } = Except.error e) ∧
    Date.tryConvert { year := 2022, month := 12, day := 31 } =
      Except.ok { year := 2022, month := 12, day := 31 } := by
  refine ⟨?_, ⟨{ year := 2020, month := 2, day := 29 }, by decide⟩,
    ⟨TimeError.componentRange "day", by decide⟩, by decide⟩
  rw [Date_tryConvert_eq]
  simp only [Nat.mod_eq_of_lt hm, Nat.mod_eq_of_lt hd]
  by_cases h1 : 1 ≤ month ∧ month ≤ 12
  · rw [if_pos h1]
    have h2 : ¬(year < -9999 ∨ 9999 < year) := by omega
    rw [if_neg h2]
    by_cases h3 : day < 1 ∨ daysInYearMonth year month < day
    · rw [if_pos h3]
      constructor
      · intro _; omega
      · intro _; exact ⟨TimeError.componentRange "day", rfl⟩
    · rw [if_neg h3]
      constructor
      · rintro ⟨e, he⟩; cases he
      · intro hcon; omega
  · rw [if_neg h1]
    constructor
    · intro _; omega
    · intro _; exact ⟨TimeError.componentRange "month", rfl⟩

theorem C6_to_date_witness :
    (-9999 : Int) ≤ 2021 ∧ (2021 : Int) ≤ 9999 ∧ 2 < 256 ∧ 29 < 256 ∧
    (∃ e, Date.tryConvert { year := 2021, month := 2, day := 29 } = Except.error e) :=
  ⟨by decide, by decide, by decide, by decide,
    (C6_to_date 2021 2 29 (by decide) (by decide) (by decide) (by decide)).1.mpr
      (by decide)⟩

/-- C7 counterexample: the claim says `to_time` fails whenever the hour is
outside 0–23, but on hour 279 the code truncates `279 as u8 = 23` and
succeeds. -/
theorem C7_counterexample :
    Time.tryConvert { hour := 279, minute := 0, second := 0 } =
      Except.ok { hour := 23, minute := 0, second := 0, nanosecond := 0 } := by decide

/-- C7 (amended): for inputs whose fields fit in 8 bits, `to_time` fails
exactly when a field is outside its valid range (hour 0–23, minute 0–59,
second 0–59, and for the nanosecond-taking variant nanosecond
0–999,999,999); `to_time(23, 59, 59)` succeeds and `to_time(24, 0, 0)`
fails. -/
theorem C7_to_time (hour minute second n : Nat)
    (hh : hour < 256) (hmi : minute < 256) (hs : second < 256) :
    ((∃ e, Time.tryConvert { hour := hour, minute := minute, second := second } =
        Except.error e) ↔ (23 < hour ∨ 59 < minute ∨ 59 < second)) ∧
    ((∃ e, timeNanoTryConvert { hour := hour, minute := minute, second := second } n =
        Except.error e) ↔ (23 < hour ∨ 59 < minute ∨ 59 < second ∨ 999999999 < n)) ∧
    (∃ x, Time.tryConvert { hour := 23, minute := 59, second := 59 } = Except.ok x) ∧
    (∃ e, Time.tryConvert { hour := 24, minute := 0, second := 0 } = Except.error e) := by
  refine ⟨?_, ?_,
    ⟨{ hour := 23, minute := 59, second := 59, nanosecond := 0 }, by decide⟩,
    ⟨TimeError.componentRange "hour", by decide⟩⟩
  · simp only [Time.tryConvert, fromHms,
      Nat.mod_eq_of_lt hh, Nat.mod_eq_of_lt hmi, Nat.mod_eq_of_lt hs]
    split_ifs with h1 h2 h3
    · exact iff_of_true ⟨_, rfl⟩ (by omega)
    · exact iff_of_true ⟨_, rfl⟩ (by omega)
    · exact iff_of_true ⟨_, rfl⟩ (by omega)
    · exact iff_of_false (by rintro ⟨e, he⟩; cases he) (by omega)
  · simp only [timeNanoTryConvert, fromHmsNano,
      Nat.mod_eq_of_lt hh, Nat.mod_eq_of_lt hmi, Nat.mod_eq_of_lt hs]
    split_ifs with h1 h2 h3 h4
    · exact iff_of_true ⟨_, rfl⟩ (by omega)
    · exact iff_of_true ⟨_, rfl⟩ (by omega)
    · exact iff_of_true ⟨_, rfl⟩ (by omega)
    · exact iff_of_true ⟨_, rfl⟩ (by omega)
    · exact iff_of_false (by rintro ⟨e, he⟩; cases he) (by omega)

theorem C7_to_time_witness :
    24 < 256 ∧ 0 < 256 ∧
    (∃ e, Time.tryConvert { hour := 24, minute := 0, second := 0 } = Except.error e) :=
  ⟨by decide, by decide,
    (C7_to_time 24 0 0 0 (by decide) (by decide) (by decide)).1.mpr (by decide)⟩

/-- C8: `to_datetime` equals the composition of the date sub-conversion on
(year, month, day) and the nanosecond-taking time sub-conversion on
(hour, minute, second) with the fraction field, and it fails exactly when
either sub-conversion fails. -/
theorem C8_datetime_composition (ts : Timestamp) :
    Timestamp.tryConvertDateTime ts = toDatetimeSpec ts ∧
    ((∃ e, Timestamp.tryConvertDateTime ts = Except.error e) ↔
      ((∃ e, Date.tryConvert { year := ts.year, month := ts.month, day := ts.day } =
          Except.error e) ∨
       (∃ e, timeNanoTryConvert
          { hour := ts.hour, minute := ts.minute, second := ts.second } ts.fraction =
          Except.error e))) := by
  cases hd : Date.tryConvert { year := ts.year, month := ts.month, day := ts.day } with
  | error e =>
    constructor
    · simp [Timestamp.tryConvertDateTime, Timestamp.tryConvertPair, toDatetimeSpec,
        hd, Bind.bind, Except.bind]
    · simp [Timestamp.tryConvertDateTime, Timestamp.tryConvertPair,
        hd, Bind.bind, Except.bind]
  | ok d =>
    cases ht : timeNanoTryConvert
        { hour := ts.hour, minute := ts.minute, second := ts.second } ts.fraction with
    | error e =>
      constructor
      · simp [Timestamp.tryConvertDateTime, Timestamp.tryConvertPair, toDatetimeSpec,
          hd, ht, Bind.bind, Except.bind]
      · simp [Timestamp.tryConvertDateTime, Timestamp.tryConvertPair,
          hd, ht, Bind.bind, Except.bind]
    | ok t =>
      constructor
      · simp [Timestamp.tryConvertDateTime, Timestamp.tryConvertPair, toDatetimeSpec,
          hd, ht, Bind.bind, Except.bind]
      · simp [Timestamp.tryConvertDateTime, Timestamp.tryConvertPair,
          hd, ht, Bind.bind, Except.bind]

/-- C10 counterexample: the claim offers hour 280 as an out-of-range value
whose low byte is in range and which is therefore accepted, but
`280 as u8 = 24`, which `from_hms` rejects — `to_time(280, 0, 0)` errors. -/
theorem C10_counterexample :
    Time.tryConvert { hour := 280, minute := 0, second := 0 } =
      Except.error (TimeError.componentRange "hour") := by decide

/-- C10 (amended): the calendar conversions validate only the low 8 bits of
each 16-bit field: `to_date` behaves as if called with
(year, month mod 256, day mod 256) and both `to_time` variants as if called
with (hour mod 256, minute mod 256, second mod 256); out-of-range values
whose low byte is in range — e.g. month 268 or hour 279 (not 280, whose low
byte 24 is out of range) — are accepted and converted as the truncated
value. -/
theorem C10_truncated_validation :
    (∀ d : Date, Date.tryConvert d =
      Date.tryConvert { year := d.year, month := d.month % 256, day := d.day % 256 }) ∧
    (∀ t : Time, Time.tryConvert t =
      Time.tryConvert
        { hour := t.hour % 256, minute := t.minute % 256, second := t.second % 256 }) ∧
    (∀ (t : Time) (n : Nat), timeNanoTryConvert t n =
      timeNanoTryConvert
        { hour := t.hour % 256, minute := t.minute % 256, second := t.second % 256 } n) ∧
    Date.tryConvert { year := 2021, month := 268, day := 15 } =
      Except.ok { year := 2021, month := 12, day := 15 } ∧
    Time.tryConvert { hour := 279, minute := 0, second := 0 } =
      Except.ok { hour := 23, minute := 0, second := 0, nanosecond := 0 } := by
  refine ⟨?_, ?_, ?_, by decide, by decide⟩
  · intro d
    simp [Date.tryConvert, Nat.mod_mod_of_dvd _ (dvd_refl 256)]
  · intro t
    simp [Time.tryConvert, Nat.mod_mod_of_dvd _ (dvd_refl 256)]
  · intro t n
    simp [timeNanoTryConvert, Nat.mod_mod_of_dvd _ (dvd_refl 256)]

/-- C1: for every nullable fixed-width buffer variant (date, time,
timestamp, f64, f32, i8, i16, i32, i64, u8, bit) and every row index `i`
within the buffer (under the equal-length invariant on the parallel
arrays), materialization produces the null variant for row `i` when the
indicator at `i` equals `NULL_DATA`, and otherwise the present variant
wrapping exactly the `i`-th element of the value array (for bit, its
boolean coercion). -/
theorem C1_nullable_roundtrip :
    (∀ (values : List Date) (indicators : List Int) (i : Nat) (v : Date) (ind : Int),
      values.length = indicators.length → values[i]? = some v → indicators[i]? = some ind →
      ∃ out, convert (AnyColumnView.NullableDate values indicators) = Except.ok out ∧
        out.length = values.length ∧
        out[i]? = some (if ind = nullData then OdbcColumnItem.Date none
          else OdbcColumnItem.Date (some v))) ∧
    (∀ (values : List Time) (indicators : List Int) (i : Nat) (v : Time) (ind : Int),
      values.length = indicators.length → values[i]? = some v → indicators[i]? = some ind →
      ∃ out, convert (AnyColumnView.NullableTime values indicators) = Except.ok out ∧
        out.length = values.length ∧
        out[i]? = some (if ind = nullData then OdbcColumnItem.Time none
          else OdbcColumnItem.Time (some v))) ∧
    (∀ (values : List Timestamp) (indicators : List Int) (i : Nat) (v : Timestamp) (ind : Int),
      values.length = indicators.length → values[i]? = some v → indicators[i]? = some ind →
      ∃ out, convert (AnyColumnView.NullableTimestamp values indicators) = Except.ok out ∧
        out.length = values.length ∧
        out[i]? = some (if ind = nullData then OdbcColumnItem.Timestamp none
          else OdbcColumnItem.Timestamp (some v))) ∧
    (∀ (values : List Nat) (indicators : List Int) (i : Nat) (v : Nat) (ind : Int),
      values.length = indicators.length → values[i]? = some v → indicators[i]? = some ind →
      ∃ out, convert (AnyColumnView.NullableF64 values indicators) = Except.ok out ∧
        out.length = values.length ∧
        out[i]? = some (if ind = nullData then OdbcColumnItem.F64 none
          else OdbcColumnItem.F64 (some v))) ∧
    (∀ (values : List Nat) (indicators : List Int) (i : Nat) (v : Nat) (ind : Int),
      values.length = indicators.length → values[i]? = some v → indicators[i]? = some ind →
      ∃ out, convert (AnyColumnView.NullableF32 values indicators) = Except.ok out ∧
        out.length = values.length ∧
        out[i]? = some (if ind = nullData then OdbcColumnItem.F32 none
          else OdbcColumnItem.F32 (some v))) ∧
    (∀ (values : List Int) (indicators : List Int) (i : Nat) (v : Int) (ind : Int),
      values.length = indicators.length → values[i]? = some v → indicators[i]? = some ind →
      ∃ out, convert (AnyColumnView.NullableI8 values indicators) = Except.ok out ∧
        out.length = values.length ∧
        out[i]? = some (if ind = nullData then OdbcColumnItem.I8 none
          else OdbcColumnItem.I8 (some v))) ∧
    (∀ (values : List Int) (indicators : List Int) (i : Nat) (v : Int) (ind : Int),
      values.length = indicators.length → values[i]? = some v → indicators[i]? = some ind →
      ∃ out, convert (AnyColumnView.NullableI16 values indicators) = Except.ok out ∧
        out.length = values.length ∧
        out[i]? = some (if ind = nullData then OdbcColumnItem.I16 none
          else OdbcColumnItem.I16 (some v))) ∧
    (∀ (values : List Int) (indicators : List Int) (i : Nat) (v : Int) (ind : Int),
      values.length = indicators.length → values[i]? = some v → indicators[i]? = some ind →
      ∃ out, convert (AnyColumnView.NullableI32 values indicators) = Except.ok out ∧
        out.length = values.length ∧
        out[i]? = some (if ind = nullData then OdbcColumnItem.I32 none
          else OdbcColumnItem.I32 (some v))) ∧
    (∀ (values : List Int) (indicators : List Int) (i : Nat) (v : Int) (ind : Int),
      values.length = indicators.length → values[i]? = some v → indicators[i]? = some ind →
      ∃ out, convert (AnyColumnView.NullableI64 values indicators) = Except.ok out ∧
        out.length = values.length ∧
        out[i]? = some (if ind = nullData then OdbcColumnItem.I64 none
          else OdbcColumnItem.I64 (some v))) ∧
    (∀ (values : List Nat) (indicators : List Int) (i : Nat) (v : Nat) (ind : Int),
      values.length = indicators.length → values[i]? = some v → indicators[i]? = some ind →
      ∃ out, convert (AnyColumnView.NullableU8 values indicators) = Except.ok out ∧
        out.length = values.length ∧
        out[i]? = some (if ind = nullData then OdbcColumnItem.U8 none
          else OdbcColumnItem.U8 (some v))) ∧
    (∀ (values : List Nat) (indicators : List Int) (i : Nat) (v : Nat) (ind : Int),
      values.length = indicators.length → values[i]? = some v → indicators[i]? = some ind →
      ∃ out, convert (AnyColumnView.NullableBit values indicators) = Except.ok out ∧
        out.length = values.length ∧
        out[i]? = some (if ind = nullData then OdbcColumnItem.Bit none
          else OdbcColumnItem.Bit (some (bitAsBool v)))) := by
  refine ⟨?_, ?_, ?_, ?_, ?_, ?_, ?_, ?_, ?_, ?_, ?_⟩ <;>
  · intro values indicators i v ind hlen hv hind
    exact nullableRows_claim _ values indicators i v ind hlen hv hind

theorem C1_nullable_roundtrip_witness :
    ∃ out,
      convert (AnyColumnView.NullableI32 [5, 7] [-1, 3]) = Except.ok out ∧
      out.length = 2 ∧
      out[1]? = some (if (3 : Int) = nullData then OdbcColumnItem.I32 none
        else OdbcColumnItem.I32 (some 7)) :=
  C1_nullable_roundtrip.2.2.2.2.2.2.2.1 [5, 7] [-1, 3] 1 7 3
    (by decide) (by decide) (by decide)

/-- C2: a wide-text buffer containing a present row span whose UTF-16
code-unit sequence is malformed (e.g. an unpaired surrogate) makes
materialization surface a decode failure (the `unwrap` panic) instead of
producing any value — partial, placeholder, or substituted — for that
buffer. -/
theorem C2_wtext_decode_failure (rows : List (Option (List Nat))) (i : Nat)
    (units : List Nat) (hrow : rows[i]? = some (some units))
    (hbad : decodeUtf16 units = none) :
    ∃ e, convert (AnyColumnView.WText rows) = Except.error e := by
  cases hc : convert (AnyColumnView.WText rows) with
  | error e => exact ⟨e, rfl⟩
  | ok out =>
    exfalso
    have hmem : (some units) ∈ rows := List.getElem?_mem hrow
    obtain ⟨y, hy⟩ := tryMap_ok_forall _ rows out hc (some units) hmem
    simp [hbad] at hy

theorem C2_wtext_decode_failure_witness :
    ([some [0xD800], none] : List (Option (List Nat)))[0]? = some (some [0xD800]) ∧
    decodeUtf16 [0xD800] = none ∧
    (∃ e, convert (AnyColumnView.WText [some [0xD800], none]) = Except.error e) :=
  ⟨by decide, by decide,
    C2_wtext_decode_failure [some [0xD800], none] 0 [0xD800] (by decide) (by decide)⟩

/-- C3 counterexample: the materializer is not total over all buffer
contents — on a wide-text buffer whose sole present span is the unpaired
lead surrogate 0xD800, conversion terminates abnormally (the `unwrap`
panic, modelled as an error) rather than returning a result sequence. -/
theorem C3_counterexample :
    convert (AnyColumnView.WText [some [0xD800]]) =
      Except.error PanicErr.utf16Unwrap := by decide

/-- C3 (amended): the materializer returns a result sequence normally, with
no error return and no abnormal termination, for every input buffer of
every variant whose present wide-text spans are all well-formed UTF-16,
under the equal-length precondition on nullable parallel arrays; the
wide-text arm panics (`unwrap`) on a malformed span. -/
theorem C3_totality (view : AnyColumnView) (h : wellFormed view = true) :
    ∃ out, convert view = Except.ok out := by
  cases view with
  | Text rows => exact ⟨_, rfl⟩
  | WText rows =>
    apply tryMap_ok_of_forall
    intro r hr
    cases r with
    | none => exact ⟨_, rfl⟩
    | some units =>
      have hdec : (decodeUtf16 units).isSome := by
        have := List.all_eq_true.mp h _ hr
        simpa using this
      cases hu : decodeUtf16 units with
      | none => rw [hu] at hdec; cases hdec
      | some cs =>
        refine ⟨OdbcColumnItem.WText (some (String.mk cs)), ?_⟩
        simp [hu]
  | Binary rows => exact ⟨_, rfl⟩
  | Date rows => exact ⟨_, rfl⟩
  | Time rows => exact ⟨_, rfl⟩
  | Timestamp rows => exact ⟨_, rfl⟩
  | I32 rows => exact ⟨_, rfl⟩
  | Bit rows => exact ⟨_, rfl⟩
  | F64 rows => exact ⟨_, rfl⟩
  | F32 rows => exact ⟨_, rfl⟩
  | I8 rows => exact ⟨_, rfl⟩
  | I16 rows => exact ⟨_, rfl⟩
  | I64 rows => exact ⟨_, rfl⟩
  | U8 rows => exact ⟨_, rfl⟩
  | NullableDate values indicators =>
    exact nullableRowsAux_ok_of_le _ indicators values 0 (by simpa using of_decide_eq_true h)
  | NullableTime values indicators =>
    exact nullableRowsAux_ok_of_le _ indicators values 0 (by simpa using of_decide_eq_true h)
  | NullableTimestamp values indicators =>
    exact nullableRowsAux_ok_of_le _ indicators values 0 (by simpa using of_decide_eq_true h)
  | NullableF64 values indicators =>
    exact nullableRowsAux_ok_of_le _ indicators values 0 (by simpa using of_decide_eq_true h)
  | NullableF32 values indicators =>
    exact nullableRowsAux_ok_of_le _ indicators values 0 (by simpa using of_decide_eq_true h)
  | NullableI8 values indicators =>
    exact nullableRowsAux_ok_of_le _ indicators values 0 (by simpa using of_decide_eq_true h)
  | NullableI16 values indicators =>
    exact nullableRowsAux_ok_of_le _ indicators values 0 (by simpa using of_decide_eq_true h)
  | NullableI32 values indicators =>
    exact nullableRowsAux_ok_of_le _ indicators values 0 (by simpa using of_decide_eq_true h)
  | NullableI64 values indicators =>
    exact nullableRowsAux_ok_of_le _ indicators values 0 (by simpa using of_decide_eq_true h)
  | NullableU8 values indicators =>
    exact nullableRowsAux_ok_of_le _ indicators values 0 (by simpa using of_decide_eq_true h)
  | NullableBit values indicators =>
    exact nullableRowsAux_ok_of_le _ indicators values 0 (by simpa using of_decide_eq_true h)

theorem C3_totality_witness :
    wellFormed (AnyColumnView.WText [some [0x68, 0xD83D, 0xDE00], none]) = true ∧
    (∃ out, convert (AnyColumnView.WText [some [0x68, 0xD83D, 0xDE00], none]) =
      Except.ok out) :=
  ⟨by decide,
    C3_totality (AnyColumnView.WText [some [0x68, 0xD83D, 0xDE00], none]) (by decide)⟩

/-- C4: for every narrow-text buffer and every row, a present span of valid
UTF-8 bytes yields the present text variant containing exactly the decoded
string, a present span of invalid UTF-8 yields a present text variant whose
content contains the replacement character U+FFFD instead of failing, and
an absent span yields the null text variant. -/
theorem C4_text_lossy (rows : List (Option (List Nat))) (out : List OdbcColumnItem)
    (h : convert (AnyColumnView.Text rows) = Except.ok out) :
    out.length = rows.length ∧
    (∀ (i : Nat) (bs : List Nat) (cs : List Char),
      rows[i]? = some (some bs) → utf8Decode? bs = some cs →
      out[i]? = some (OdbcColumnItem.Text (some (String.mk cs)))) ∧
    (∀ (i : Nat) (bs : List Nat), rows[i]? = some (some bs) → utf8Decode? bs = none →
      ∃ s, out[i]? = some (OdbcColumnItem.Text (some s)) ∧ replChar ∈ s.data) ∧
    (∀ i : Nat, rows[i]? = some none → out[i]? = some (OdbcColumnItem.Text none)) := by
  have hout : out = rows.map (fun r =>
      match r with
      | some bytes => OdbcColumnItem.Text (some (String.mk (utf8DecodeLossy bytes)))
      | none => OdbcColumnItem.Text none) := by
    simp only [convert] at h
    exact (Except.ok.injEq _ _).mp h.symm
  subst hout
  refine ⟨by simp, ?_, ?_, ?_⟩
  · intro i bs cs hrow hdec
    simp only [List.getElem?_map, hrow]
    simp [utf8DecodeLossy_of_valid hdec]
  · intro i bs hrow hdec
    simp only [List.getElem?_map, hrow]
    exact ⟨String.mk (utf8DecodeLossy bs), by simp,
      replChar_mem_utf8DecodeLossy_of_invalid hdec⟩
  · intro i hrow
    simp only [List.getElem?_map, hrow]
    rfl

theorem C4_text_lossy_witness :
    ∃ out,
      convert (AnyColumnView.Text
        [some [0x68, 0xC3, 0xA9, 0x6C, 0x6C, 0x6F], some [0xFF, 0x41], none]) =
        Except.ok out ∧
      out[0]? = some (OdbcColumnItem.Text (some "héllo")) ∧
      (∃ s, out[1]? = some (OdbcColumnItem.Text (some s)) ∧ replChar ∈ s.data) ∧
      out[2]? = some (OdbcColumnItem.Text none) := by
  obtain ⟨hlen, hvalid, hinvalid, habsent⟩ := C4_text_lossy
    [some [0x68, 0xC3, 0xA9, 0x6C, 0x6C, 0x6F], some [0xFF, 0x41], none] _ rfl
  refine ⟨_, rfl, ?_, ?_, ?_⟩
  · have := hvalid 0 [0x68, 0xC3, 0xA9, 0x6C, 0x6C, 0x6F]
      ['h', 'é', 'l', 'l', 'o'] (by decide) (by decide)
    simpa using this
  · exact hinvalid 1 [0xFF, 0x41] (by decide) (by decide)
  · exact habsent 2 (by decide)

/-- C9: for every input buffer of every variant, the materializer's output
(when it completes normally) has exactly one cell per input row, and the
cell at output index `i` is derived from the input row at index `i` — no
sorting, deduplication, insertion, or omission. -/
theorem C9_order_preservation (view : AnyColumnView) (out : List OdbcColumnItem)
    (h : convert view = Except.ok out) :
    out.length = rowCount view ∧
    ∀ i : Nat, i < rowCount view →
      rowCell view i = Except.ok (out.getD i (OdbcColumnItem.Text none)) := by
  cases view with
  | Text rows => exact map_rowCell _ rows out none h
  | WText rows =>
    exact ⟨tryMap_ok_length _ rows out h,
      fun i hi => tryMap_ok_getD _ none (OdbcColumnItem.Text none) rows out h i hi⟩
  | Binary rows => exact map_rowCell _ rows out none h
  | Date rows => exact map_rowCell _ rows out default h
  | Time rows => exact map_rowCell _ rows out default h
  | Timestamp rows => exact map_rowCell _ rows out default h
  | I32 rows => exact map_rowCell _ rows out default h
  | Bit rows => exact map_rowCell _ rows out default h
  | F64 rows => exact map_rowCell _ rows out default h
  | F32 rows => exact map_rowCell _ rows out default h
  | I8 rows => exact map_rowCell _ rows out default h
  | I16 rows => exact map_rowCell _ rows out default h
  | I64 rows => exact map_rowCell _ rows out default h
  | U8 rows => exact map_rowCell _ rows out default h
  | NullableDate values indicators => exact nullableRows_rowCell _ values indicators out h
  | NullableTime values indicators => exact nullableRows_rowCell _ values indicators out h
  | NullableTimestamp values indicators =>
    exact nullableRows_rowCell _ values indicators out h
  | NullableF64 values indicators => exact nullableRows_rowCell _ values indicators out h
  | NullableF32 values indicators => exact nullableRows_rowCell _ values indicators out h
  | NullableI8 values indicators => exact nullableRows_rowCell _ values indicators out h
  | NullableI16 values indicators => exact nullableRows_rowCell _ values indicators out h
  | NullableI32 values indicators => exact nullableRows_rowCell _ values indicators out h
  | NullableI64 values indicators => exact nullableRows_rowCell _ values indicators out h
  | NullableU8 values indicators => exact nullableRows_rowCell _ values indicators out h
  | NullableBit values indicators => exact nullableRows_rowCell _ values indicators out h

theorem C9_order_preservation_witness :
    ([OdbcColumnItem.I32 none, OdbcColumnItem.I32 (some 7)].length =
      rowCount (AnyColumnView.NullableI32 [5, 7] [-1, 3])) ∧
    rowCell (AnyColumnView.NullableI32 [5, 7] [-1, 3]) 1 =
      Except.ok ([OdbcColumnItem.I32 none, OdbcColumnItem.I32 (some 7)].getD 1
        (OdbcColumnItem.Text none)) := by
  have h := C9_order_preservation (AnyColumnView.NullableI32 [5, 7] [-1, 3])
    [OdbcColumnItem.I32 none, OdbcColumnItem.I32 (some 7)] (by decide)
  exact ⟨h.1, h.2 1 (by decide)⟩

end OdbcBridge
